import Mathlib

/-!
Shallow embedding of the FlowBridge AI-engine aggregation-and-caching
pipeline (`src/ai-engine/src/data`): the yield aggregator
(`collectors/yield_scanner.py`), the Redis-backed cache layer
(`storage/cache.py`) and the upsert-based persistence layer
(`storage/database.py`).  Python floats are modelled as `ℚ`, Python
ints as `ℤ`/`ℕ`, fallible operations as `Except`, and a payload row
(a parsed-JSON dict) is modelled by a structure whose fields hold the
values the code extracts with `dict.get`; a field is an `Option` only
where the code uses two different defaults for the same dict entry.
-/

namespace FlowBridge

/-- The canonical yield record (`YieldOpportunity` dataclass,
`yield_scanner.py` lines 9-22).  `last_updated` (a `datetime.now()`
timestamp) is modelled as a natural number. -/
structure YieldOpportunity where
  protocol : String
  pool_name : String
  apy : ℚ
  tvl : ℚ
  risk_score : ℤ
  category : String
  chain : String
  token_symbols : List String
  contract_address : String
  minimum_deposit : ℚ
  lock_period : ℤ
  last_updated : ℕ
  deriving DecidableEq, Repr

/-- The deduplication key `(opp.contract_address, opp.pool_name)`
(`yield_scanner.py` line 374). -/
def dedupKey (o : YieldOpportunity) : String × String :=
  (o.contract_address, o.pool_name)

/-- The loop body of `_deduplicate_opportunities`: walk the list keeping a
`seen` set of keys, emitting a record only when its key is unseen
(`yield_scanner.py` lines 368-379). -/
def dedupGo (seen : List (String × String)) :
    List YieldOpportunity → List YieldOpportunity
  | [] => []
  | opp :: rest =>
    let key := dedupKey opp
    if key ∈ seen then dedupGo seen rest
    else opp :: dedupGo (key :: seen) rest

/-- `_deduplicate_opportunities(opportunities)` (`yield_scanner.py`
lines 368-379). -/
def deduplicate_opportunities (opportunities : List YieldOpportunity) :
    List YieldOpportunity :=
  dedupGo [] opportunities

/-- The comparison used by `sorted(..., key=lambda x: x.apy, reverse=True)`
(`yield_scanner.py` line 71): descending on `apy` and nothing else. -/
def apyGe (x y : YieldOpportunity) : Prop := y.apy ≤ x.apy

instance : DecidableRel apyGe := fun x y => inferInstanceAs (Decidable (y.apy ≤ x.apy))

instance : IsTotal YieldOpportunity apyGe :=
  ⟨fun x y => (le_total y.apy x.apy).imp id id⟩

instance : IsTrans YieldOpportunity apyGe :=
  ⟨fun _ _ _ hxy hyz => le_trans hyz hxy⟩

/-- Python's `sorted` is a stable sort; with `reverse=True` equal keys keep
their original relative order, which is exactly `List.insertionSort` with
the reflexive descending comparison `apyGe`. -/
def sortByApyDesc (l : List YieldOpportunity) : List YieldOpportunity :=
  List.insertionSort apyGe l

/-- The result-collection loop of `scan_yield_opportunities`
(`yield_scanner.py` lines 62-67): `asyncio.gather(..., return_exceptions=True)`
yields, per collector, either its record list or a raised exception; lists
are concatenated in task order and exceptions are logged and skipped. -/
def collectResults (results : List (Except String (List YieldOpportunity))) :
    List YieldOpportunity :=
  match results with
  | [] => []
  | .ok l :: rest => l ++ collectResults rest
  | .error _ :: rest => collectResults rest

/-- Lines 60-71 of `scan_yield_opportunities`: gather the per-collector
results, concatenate the successful lists, deduplicate, and sort by `apy`
descending. -/
def aggregateResults (results : List (Except String (List YieldOpportunity))) :
    List YieldOpportunity :=
  sortByApyDesc (deduplicate_opportunities (collectResults results))

/-- Occurrence of one character list at some position of another. -/
def listInfix (needle : List Char) : List Char → Bool
  | [] => needle.isEmpty
  | c :: rest => List.isPrefixOf needle (c :: rest) || listInfix needle rest

/-- Replace a collector failure by a successful empty fetch; used to state
that a failing collector contributes exactly an empty list. -/
def maskErrors (r : Except String (List YieldOpportunity)) :
    Except String (List YieldOpportunity) :=
  match r with
  | .ok l => .ok l
  | .error _ => .ok []

/-- Python's `needle in haystack` substring test. -/
def substrIn (needle hay : String) : Bool :=
  listInfix needle.toList hay.toList

/-- One row of the DeFiLlama `/pools` payload, as extracted by
`_scan_defillama_yields` and `_calculate_risk_score`: each field holds the
result of the corresponding `pool.get(...)` with the code's default
(`apy`/`tvlUsd` default 0, `chain`/`exposure`/`symbol`/`pool` default `''`,
`poolMeta.ageDays` default 0).  `project` is kept as an `Option` because the
code defaults it to `'Unknown'` when building the record but to `''` inside
the risk score and category heuristics. -/
structure LlamaPool where
  apy : ℚ
  tvlUsd : ℚ
  chain : String
  exposure : String
  project : Option String
  symbol : String
  pool : String
  ageDays : ℤ
  deriving DecidableEq, Repr

/-- `_calculate_risk_score(pool_data)` (`yield_scanner.py` lines 307-334). -/
def calculate_risk_score (p : LlamaPool) : ℤ :=
  let score : ℤ := 5
  let score := if p.tvlUsd > 100000000 then score - 1
    else if p.tvlUsd < 1000000 then score + 2 else score
  let score := if p.ageDays > 365 then score - 1
    else if p.ageDays < 30 then score + 2 else score
  let score := if (p.project.getD "").toLower ∈
      ["aave", "compound", "uniswap", "curve"] then score - 1 else score
  let score := if substrIn "lp" p.symbol.toLower then score + 1 else score
  max 1 (min 10 score)

/-- `_categorize_pool(pool_data)` (`yield_scanner.py` lines 352-366). -/
def categorize_pool (p : LlamaPool) : String :=
  let project := (p.project.getD "").toLower
  let symbol := p.symbol.toLower
  if project ∈ ["aave", "compound"] then "lending"
  else if project ∈ ["uniswap", "curve", "balancer"] then "dex"
  else if substrIn "lp" symbol || substrIn "-" symbol then "liquidity_provision"
  else if project ∈ ["yearn", "convex"] then "yield_farming"
  else "other"

/-- The record built for an admissible DeFiLlama pool
(`yield_scanner.py` lines 102-115). -/
def llamaOpportunity (p : LlamaPool) (now : ℕ) : YieldOpportunity :=
  { protocol := p.project.getD "Unknown"
    pool_name := p.symbol
    apy := p.apy
    tvl := p.tvlUsd
    risk_score := calculate_risk_score p
    category := categorize_pool p
    chain := p.chain.toLower
    token_symbols := p.symbol.splitOn "-"
    contract_address := p.pool
    minimum_deposit := 0
    lock_period := 0
    last_updated := now }

/-- `_scan_defillama_yields(min_apy, min_tvl, chains)` applied to a parsed
payload (`yield_scanner.py` lines 77-122): admissibility filter
`apy >= min_apy and tvl >= min_tvl and chain in chains and exposure != 'multi'`,
then the record construction, truncated to the first 50. -/
def scan_defillama_yields (min_apy min_tvl : ℚ) (chains : List String)
    (pools : List LlamaPool) (now : ℕ) : List YieldOpportunity :=
  ((pools.filter fun p =>
      decide (min_apy ≤ p.apy ∧ min_tvl ≤ p.tvlUsd ∧
        p.chain.toLower ∈ chains ∧ p.exposure ≠ "multi")).map
    (fun p => llamaOpportunity p now)).take 50

/-- One vault of the Yearn `vaults/all` payload, as extracted by
`_scan_yearn_yields`: `net_apy = vault.get('apy',{}).get('net_apy', 0)`,
`tvl = vault.get('tvl',{}).get('tvl', 0)`, `name`, `token.symbol`,
`address` (all defaulting to `''`/`0`). -/
structure YearnVault where
  name : String
  net_apy : ℚ
  tvl : ℚ
  tokenSymbol : String
  address : String
  deriving DecidableEq, Repr

/-- `_scan_yearn_yields(min_apy, min_tvl)` applied to a parsed payload
(`yield_scanner.py` lines 124-162).  Note: this collector receives no
`chains` argument and always emits `chain='ethereum'`; the guard
`if net_apy and ...` is Python truthiness, i.e. `net_apy ≠ 0`. -/
def scan_yearn_yields (min_apy min_tvl : ℚ) (vaults : List YearnVault)
    (now : ℕ) : List YieldOpportunity :=
  (vaults.filter fun v =>
      decide (v.net_apy ≠ 0 ∧ min_apy ≤ v.net_apy * 100 ∧ min_tvl ≤ v.tvl)).map
    fun v =>
      { protocol := "Yearn"
        pool_name := v.name
        apy := v.net_apy * 100
        tvl := v.tvl
        risk_score := 3
        category := "yield_farming"
        chain := "ethereum"
        token_symbols := [v.tokenSymbol]
        contract_address := v.address
        minimum_deposit := 0
        lock_period := 0
        last_updated := now }

/-- One vault of the Beefy `/vaults` payload, as extracted by
`_scan_beefy_yields` and `_calculate_beefy_risk_score`. -/
structure BeefyVault where
  id : String
  chain : String
  name : String
  stratType : String
  platformId : String
  earnContractAddress : String
  deriving DecidableEq, Repr

/-- `apy_data.get(vault_id, 0) * 100 if vault_id in apy_data else 0`
(`yield_scanner.py` line 200); the `/apy` payload dict is modelled as an
association list. -/
def beefyApy (apyData : List (String × ℚ)) (vaultId : String) : ℚ :=
  match apyData.lookup vaultId with
  | some a => a * 100
  | none => 0

/-- `tvl_data.get(vault_id, 0) if vault_id in tvl_data else 0`
(`yield_scanner.py` line 201). -/
def beefyTvl (tvlData : List (String × ℚ)) (vaultId : String) : ℚ :=
  match tvlData.lookup vaultId with
  | some t => t
  | none => 0

/-- `_calculate_beefy_risk_score(vault_data)` (`yield_scanner.py`
lines 336-350). -/
def calculate_beefy_risk_score (v : BeefyVault) : ℤ :=
  let score : ℤ := 4
  let score := if substrIn "lp" v.stratType.toLower then score + 1 else score
  let score := if v.platformId.toLower ∈ ["pancakeswap", "quickswap"] then
    score + 1 else score
  max 1 (min 10 score)

/-- `_scan_beefy_yields(min_apy, min_tvl, chains)` applied to parsed
payloads (`yield_scanner.py` lines 164-227): skip vaults whose chain is not
in `chains`, look up apy and tvl, filter by the thresholds, build records,
truncate to the first 30. -/
def scan_beefy_yields (min_apy min_tvl : ℚ) (chains : List String)
    (vaults : List BeefyVault) (apyData tvlData : List (String × ℚ))
    (now : ℕ) : List YieldOpportunity :=
  ((vaults.filter fun v =>
      decide (v.chain.toLower ∈ chains ∧
        min_apy ≤ beefyApy apyData v.id ∧ min_tvl ≤ beefyTvl tvlData v.id)).map
    fun v =>
      { protocol := "Beefy"
        pool_name := v.name
        apy := beefyApy apyData v.id
        tvl := beefyTvl tvlData v.id
        risk_score := calculate_beefy_risk_score v
        category := "yield_farming"
        chain := v.chain.toLower
        token_symbols := (v.name.splitOn "-").take 2
        contract_address := v.earnContractAddress
        minimum_deposit := 0
        lock_period := 0
        last_updated := now }).take 30

/-- The hard-coded chain default of `scan_yield_opportunities`
(`yield_scanner.py` line 52). -/
def defaultChains : List String :=
  ["ethereum", "polygon", "arbitrum", "optimism", "avalanche"]

/-- `if not chains: chains = [...]` (`yield_scanner.py` lines 51-52):
`None` and the empty list both fall back to the default. -/
def effectiveChains (chains : Option (List String)) : List String :=
  match chains with
  | none => defaultChains
  | some [] => defaultChains
  | some cs => cs

/-- The Beefy collector's three fetched payloads. -/
structure BeefyPayload where
  vaults : List BeefyVault
  apyData : List (String × ℚ)
  tvlData : List (String × ℚ)

/-- `scan_yield_opportunities(min_apy, min_tvl, chains)` (`yield_scanner.py`
lines 45-75) as a function of the three collectors' fetch outcomes: each
upstream payload either parses (`Except.ok`) or its collector fails
(`Except.error`, contributing an exception to `asyncio.gather`); the three
task results are aggregated in the fixed task order
DeFiLlama, Yearn, Beefy. -/
def scan_yield_opportunities (min_apy min_tvl : ℚ)
    (chains : Option (List String))
    (llama : Except String (List LlamaPool))
    (yearn : Except String (List YearnVault))
    (beefy : Except String BeefyPayload) (now : ℕ) : List YieldOpportunity :=
  let cs := effectiveChains chains
  aggregateResults
    [llama.map (fun ps => scan_defillama_yields min_apy min_tvl cs ps now),
     yearn.map (fun vs => scan_yearn_yields min_apy min_tvl vs now),
     beefy.map (fun b => scan_beefy_yields min_apy min_tvl cs b.vaults b.apyData b.tvlData now)]

/-! ## Cache layer (`storage/cache.py`) -/

/-- A Python value storable in the cache, restricted to the JSON-like
universe the code serializes: ints, strings, tuples, lists and
string-keyed dicts. -/
inductive PyVal where
  | int (n : ℤ)
  | str (s : String)
  | tuple (xs : List PyVal)
  | list (xs : List PyVal)
  | dict (entries : List (String × PyVal))

/-- A JSON value: what `json.dumps`/`json.loads` round-trips through.
JSON has no tuples, only arrays. -/
inductive JVal where
  | int (n : ℤ)
  | str (s : String)
  | arr (xs : List JVal)
  | obj (entries : List (String × JVal))

mutual

/-- `json.dumps` on a `PyVal`: tuples and lists both serialize as JSON
arrays. -/
def encodePy : PyVal → JVal
  | .int n => .int n
  | .str s => .str s
  | .tuple xs => .arr (encodePyList xs)
  | .list xs => .arr (encodePyList xs)
  | .dict es => .obj (encodePyEntries es)

def encodePyList : List PyVal → List JVal
  | [] => []
  | x :: xs => encodePy x :: encodePyList xs

def encodePyEntries : List (String × PyVal) → List (String × JVal)
  | [] => []
  | (k, v) :: es => (k, encodePy v) :: encodePyEntries es

end

mutual

/-- `json.loads`: JSON arrays come back as Python lists. -/
def decodeJ : JVal → PyVal
  | .int n => .int n
  | .str s => .str s
  | .arr xs => .list (decodeJList xs)
  | .obj es => .dict (decodeJEntries es)

def decodeJList : List JVal → List PyVal
  | [] => []
  | x :: xs => decodeJ x :: decodeJList xs

def decodeJEntries : List (String × JVal) → List (String × PyVal)
  | [] => []
  | (k, v) :: es => (k, decodeJ v) :: decodeJEntries es

end

mutual

/-- Whether a value contains a tuple anywhere (tuples are the values the
JSON round trip does not preserve). -/
def hasTuple : PyVal → Bool
  | .int _ => false
  | .str _ => false
  | .tuple _ => true
  | .list xs => hasTupleList xs
  | .dict es => hasTupleEntries es

def hasTupleList : List PyVal → Bool
  | [] => false
  | x :: xs => hasTuple x || hasTupleList xs

def hasTupleEntries : List (String × PyVal) → Bool
  | [] => false
  | (_, v) :: es => hasTuple v || hasTupleEntries es

end

/-- `isinstance(value, (dict, list))` (`cache.py` line 74). -/
def isDictOrList : PyVal → Bool
  | .dict _ => true
  | .list _ => true
  | _ => false

/-- The serialized blob stored under a key: dicts and lists are stored as
JSON text, everything else is pickled (`cache.py` lines 73-77).  A pickled
blob is never valid JSON text (pickle frames are binary), so the two forms
are distinguishable, as `get`'s fallback chain relies on. -/
inductive SVal where
  | json (j : JVal)
  | pickled (v : PyVal)

/-- The serialization step of `set` (`cache.py` lines 73-77). -/
def serializeValue (v : PyVal) : SVal :=
  if isDictOrList v then .json (encodePy v) else .pickled v

/-- The deserialization chain of `get` (`cache.py` lines 97-104):
`json.loads` first — it succeeds exactly on JSON blobs — then
`pickle.loads`, which is the identity on pickled values. -/
def deserializeValue : SVal → PyVal
  | .json j => decodeJ j
  | .pickled v => v

/-- The Redis keyspace visible to one `CacheManager`: each live key maps to
its blob and its absolute expiry time (`SETEX` stores value plus TTL). -/
def CacheState := List (String × SVal × ℕ)

/-- Lookup of a key's entry. -/
def cacheFind (st : CacheState) (k : String) : Option (SVal × ℕ) :=
  match st with
  | [] => none
  | (k', b, e) :: rest => if k' = k then some (b, e) else cacheFind rest k

/-- Removal of a key's entries (Redis `SETEX` replaces the old value and
TTL wholesale). -/
def cacheErase (st : CacheState) (k : String) : CacheState :=
  match st with
  | [] => []
  | (k', b, e) :: rest =>
    if k' = k then cacheErase rest k else (k', b, e) :: cacheErase rest k

/-- The effect of a successful `set(key, value, ttl)` at absolute time
`now` (`cache.py` lines 62-85): the serialized value is stored with expiry
`now + ttl`, replacing any previous entry. -/
def cacheSet (st : CacheState) (k : String) (v : PyVal) (ttl now : ℕ) :
    CacheState :=
  (k, serializeValue v, now + ttl) :: cacheErase st k

/-- `get(key, default)` at absolute time `now` (`cache.py` lines 87-108):
an absent or expired key is a miss returning `default`; Redis expires a key
once `now` reaches its expiry time. -/
def cacheGet (st : CacheState) (k : String) (dflt : PyVal) (now : ℕ) :
    PyVal :=
  match cacheFind st k with
  | none => dflt
  | some (b, e) => if now < e then deserializeValue b else dflt

/-! ### `_generate_key` (`cache.py` lines 51-60) -/

/-- The ordering `sorted(identifier.items())` uses on a dict's items: dict
keys are distinct, so only the first components are ever compared. -/
def itemLe {α : Type} (a b : String × α) : Prop := a.1 ≤ b.1

instance {α : Type} : DecidableRel (itemLe (α := α)) := fun a b =>
  inferInstanceAs (Decidable (a.1 ≤ b.1))

instance {α : Type} : IsTotal (String × α) itemLe :=
  ⟨fun a b => le_total a.1 b.1⟩

instance {α : Type} : IsTrans (String × α) itemLe :=
  ⟨fun _ _ _ h h' => le_trans h h'⟩

/-- Strict version of `itemLe`, under which a sorted item list with
pairwise-distinct keys is unique. -/
def itemLt {α : Type} (a b : String × α) : Prop := a.1 < b.1

instance {α : Type} : IsAntisymm (String × α) itemLt :=
  ⟨fun _ _ h h' => absurd h' (lt_asymm h)⟩

/-- `sorted(identifier.items())` (`cache.py` line 55): a dict is modelled
as its item list in insertion order; sorting canonicalizes it. -/
def sortedItems {α : Type} (items : List (String × α)) : List (String × α) :=
  List.insertionSort itemLe items

/-- `_generate_key(prefix, identifier)` for a dict identifier (`cache.py`
lines 51-58): sort the items, serialize (`json.dumps`), hash
(`hashlib.md5(...).hexdigest()`), and join onto the category prefix.  The
serializer and the hash are external deterministic functions
(`json.dumps`, `hashlib.md5`) taken as parameters. -/
def generate_key {α : Type} (hashHex : String → String)
    (ser : List (String × α) → String) (category : String)
    (params : List (String × α)) : String :=
  category ++ ":" ++ hashHex (ser (sortedItems params))

/-! ### `set_if_not_exists` as a two-step interleaved operation
(`cache.py` lines 315-330) -/

/-- Execution phase of one `set_if_not_exists(k, v, ttl)` call: it first
awaits `exists(k)` and only then, in a separate step, awaits
`set(k, v, ttl)`; another task can run between the two awaits. -/
inductive NxPhase where
  | ready
  | checked
  | done (wrote : Bool)
  deriving DecidableEq, Repr

/-- One step of one `set_if_not_exists` call on the single key's entry:
from `ready`, the `exists` check either finishes the call with `False`
(key present, line 323-324) or moves to `checked`; from `checked`, the
unconditional `set` stores the value and reports `True` (line 326). -/
def nxStep (v : ℕ) : NxPhase → Option ℕ → NxPhase × Option ℕ
  | .ready, st => (if st.isSome then .done false else .checked, st)
  | .checked, _ => (.done true, some v)
  | .done r, st => (.done r, st)

/-- Joint state of two concurrent `set_if_not_exists` calls on the same
key: each call's phase plus the key's stored value. -/
structure NxSystem where
  c1 : NxPhase
  c2 : NxPhase
  store : Option ℕ
  deriving DecidableEq, Repr

/-- Both calls pending, key absent. -/
def nxInit : NxSystem := ⟨.ready, .ready, none⟩

/-- Run a schedule: `true` steps call 1 (writing `v1`), `false` steps
call 2 (writing `v2`). -/
def nxRun (v1 v2 : ℕ) : List Bool → NxSystem → NxSystem
  | [], s => s
  | b :: rest, s =>
    if b then
      let (p, st) := nxStep v1 s.c1 s.store
      nxRun v1 v2 rest ⟨p, s.c2, st⟩
    else
      let (p, st) := nxStep v2 s.c2 s.store
      nxRun v1 v2 rest ⟨s.c1, p, st⟩

/-! ### The non-throwing public boundary (`cache.py` lines 62-121) -/

/-- `set` (`cache.py` lines 62-85) as a function of the client state and
the underlying `SETEX` outcome: `False` when the client is uninitialized,
`False` when anything raises (`except Exception`), `True` otherwise. -/
def cacheSetSafe (redis : Option Unit) (setexResult : Except String Unit) :
    Bool :=
  match redis with
  | none => false
  | some _ =>
    match setexResult with
    | .ok _ => true
    | .error _ => false

/-- `get` (`cache.py` lines 87-108) as a function of the client state and
the underlying `GET` outcome: the default on an uninitialized client, on a
missing key, and on any raised exception. -/
def cacheGetSafe (redis : Option Unit) (getResult : Except String (Option SVal))
    (dflt : PyVal) : PyVal :=
  match redis with
  | none => dflt
  | some _ =>
    match getResult with
    | .error _ => dflt
    | .ok none => dflt
    | .ok (some b) => deserializeValue b

/-- `delete` (`cache.py` lines 110-121): `False` on an uninitialized
client or a raised exception, otherwise whether Redis reports at least one
key removed. -/
def cacheDeleteSafe (redis : Option Unit) (delResult : Except String ℕ) :
    Bool :=
  match redis with
  | none => false
  | some _ =>
    match delResult with
    | .ok n => decide (0 < n)
    | .error _ => false

/-! ## Persistence layer (`storage/database.py`) -/

/-- One dict of the `yield_data` argument of `store_yield_data`, holding
the values extracted at `database.py` lines 208-221. -/
structure YieldRecordIn where
  protocol : String
  pool_name : String
  apy : ℚ
  tvl : ℚ
  risk_score : ℤ
  category : String
  chain : String
  contract_address : String
  token_symbols : List String
  minimum_deposit : ℚ
  lock_period : ℤ
  last_updated : ℕ
  deriving DecidableEq, Repr

/-- One row of the `yield_data` table (`database.py` lines 66-83), minus
the surrogate `id`. -/
structure YieldRow where
  protocol : String
  pool_name : String
  apy : ℚ
  tvl : ℚ
  risk_score : ℤ
  category : String
  chain : String
  contract_address : String
  token_symbols : List String
  minimum_deposit : ℚ
  lock_period : ℤ
  last_updated : ℕ
  created_at : ℕ
  deriving DecidableEq, Repr

/-- The natural key `UNIQUE(protocol, pool_name, chain, last_updated)`
(`database.py` line 82). -/
def yieldKey (r : YieldRow) : String × String × String × ℕ :=
  (r.protocol, r.pool_name, r.chain, r.last_updated)

/-- The natural key of an incoming record. -/
def yieldRecKey (d : YieldRecordIn) : String × String × String × ℕ :=
  (d.protocol, d.pool_name, d.chain, d.last_updated)

/-- The fresh row inserted when no conflict occurs; `created_at` takes the
column default `CURRENT_TIMESTAMP`. -/
def yieldRowOf (d : YieldRecordIn) (now : ℕ) : YieldRow :=
  { protocol := d.protocol
    pool_name := d.pool_name
    apy := d.apy
    tvl := d.tvl
    risk_score := d.risk_score
    category := d.category
    chain := d.chain
    contract_address := d.contract_address
    token_symbols := d.token_symbols
    minimum_deposit := d.minimum_deposit
    lock_period := d.lock_period
    last_updated := d.last_updated
    created_at := now }

/-- The effect of one `INSERT ... ON CONFLICT (protocol, pool_name, chain,
last_updated) DO UPDATE SET apy, tvl, risk_score` (`database.py` lines
223-235): on a key collision only `apy`, `tvl` and `risk_score` are
overwritten; otherwise a fresh row is appended. -/
def upsertYield (table : List YieldRow) (d : YieldRecordIn) (now : ℕ) :
    List YieldRow :=
  if table.any (fun r => decide (yieldKey r = yieldRecKey d)) then
    table.map fun r =>
      if yieldKey r = yieldRecKey d then
        { r with apy := d.apy, tvl := d.tvl, risk_score := d.risk_score }
      else r
  else table ++ [yieldRowOf d now]

/-- `store_yield_data(yield_data)` (`database.py` lines 199-242):
`executemany` applies the upsert to each record in order. -/
def store_yield_data (table : List YieldRow) (ds : List YieldRecordIn)
    (now : ℕ) : List YieldRow :=
  ds.foldl (fun t d => upsertYield t d now) table

/-- One row of the `portfolio_snapshots` table (`database.py` lines
86-95), minus the surrogate `id`; the JSONB payloads are kept as their
`json.dumps` text. -/
structure SnapshotRow where
  portfolio_id : String
  total_value : ℚ
  allocations : String
  performance_metrics : String
  risk_metrics : String
  timestamp : ℕ
  created_at : ℕ
  deriving DecidableEq, Repr

/-- The natural key the spec assigns to portfolio snapshots:
`(portfolio_id, observed_at)`. -/
def snapshotKey (r : SnapshotRow) : String × ℕ :=
  (r.portfolio_id, r.timestamp)

/-- The snapshot payload passed to `store_portfolio_snapshot`. -/
structure SnapshotIn where
  total_value : ℚ
  allocations : String
  performance_metrics : String
  risk_metrics : String
  timestamp : ℕ
  deriving DecidableEq, Repr

/-- `store_portfolio_snapshot(portfolio_id, snapshot_data)` (`database.py`
lines 244-267): a plain `INSERT` — the table declares no unique
constraint on `(portfolio_id, timestamp)` and the statement has no
`ON CONFLICT` clause, so every call appends a row. -/
def store_portfolio_snapshot (table : List SnapshotRow) (pid : String)
    (snap : SnapshotIn) (now : ℕ) : List SnapshotRow :=
  table ++ [{ portfolio_id := pid
              total_value := snap.total_value
              allocations := snap.allocations
              performance_metrics := snap.performance_metrics
              risk_metrics := snap.risk_metrics
              timestamp := snap.timestamp
              created_at := now }]

/-! ## Sample values used by concrete counterexamples and witnesses -/

/-- A USDC lending record as the DeFiLlama collector (the first task in
the fixed task order) would emit it. -/
def oppLlamaUSDC : YieldOpportunity :=
  { protocol := "Aave"
    pool_name := "USDC"
    apy := 5
    tvl := 2000000
    risk_score := 4
    category := "lending"
    chain := "ethereum"
    token_symbols := ["USDC"]
    contract_address := "0x1"
    minimum_deposit := 0
    lock_period := 0
    last_updated := 0 }

/-- A record for the same pool (same dedup key) as a later collector would
emit it, with a different apy. -/
def oppBeefyUSDC : YieldOpportunity :=
  { oppLlamaUSDC with protocol := "Beefy", apy := 7, category := "yield_farming" }

/-- An apy-tie record with low tvl, listed first. -/
def oppTieLowTvl : YieldOpportunity :=
  { protocol := "Zeta"
    pool_name := "A"
    apy := 5
    tvl := 1000000
    risk_score := 5
    category := "other"
    chain := "ethereum"
    token_symbols := ["A"]
    contract_address := "0xa"
    minimum_deposit := 0
    lock_period := 0
    last_updated := 0 }

/-- An apy-tie record with higher tvl, listed second. -/
def oppTieHighTvl : YieldOpportunity :=
  { oppTieLowTvl with
    protocol := "Alpha", pool_name := "B", tvl := 50000000,
    contract_address := "0xb", token_symbols := ["B"] }

/-- A Yearn vault passing the apy and tvl thresholds. -/
def yearnVaultDemo : YearnVault :=
  { name := "USDC Vault"
    net_apy := 1/10
    tvl := 2000000
    tokenSymbol := "USDC"
    address := "0xy" }

/-- The record `_scan_yearn_yields` builds from `yearnVaultDemo`. -/
def yearnOppDemo : YieldOpportunity :=
  { protocol := "Yearn"
    pool_name := "USDC Vault"
    apy := 1/10 * 100
    tvl := 2000000
    risk_score := 3
    category := "yield_farming"
    chain := "ethereum"
    token_symbols := ["USDC"]
    contract_address := "0xy"
    minimum_deposit := 0
    lock_period := 0
    last_updated := 0 }

/-- An incoming yield record. -/
def ydInFirst : YieldRecordIn :=
  { protocol := "Aave"
    pool_name := "USDC"
    apy := 5
    tvl := 2000000
    risk_score := 4
    category := "lending"
    chain := "ethereum"
    contract_address := "0x1"
    token_symbols := ["USDC"]
    minimum_deposit := 0
    lock_period := 0
    last_updated := 100 }

/-- A second record with the same natural key and a different risk
score. -/
def ydInSecond : YieldRecordIn :=
  { ydInFirst with apy := 6, risk_score := 9 }

/-- A snapshot payload. -/
def snapDemo : SnapshotIn :=
  { total_value := 1000
    allocations := "\x7b\x7d"
    performance_metrics := "\x7b\x7d"
    risk_metrics := "\x7b\x7d"
    timestamp := 10 }

/-- A concrete stand-in serializer over string-valued parameter items. -/
def serDemo (l : List (String × String)) : String :=
  String.intercalate "," (l.map fun p => p.1 ++ "=" ++ p.2)

/-- A list holding a tuple: the value whose cache round trip is not the
identity. -/
def tupleInList : PyVal :=
  PyVal.list [PyVal.tuple [PyVal.int 1, PyVal.int 2]]

/-!
# Theorems
-/

/-- Claim C6: for every pool record, `_calculate_risk_score` equals the
clamp to `[1, 10]` of base 5, minus 1 if tvl exceeds 1e8, plus 2 if tvl is
below 1e6, minus 1 if the pool is older than 365 days, plus 2 if younger
than 30 days, minus 1 if the project is on the blue-chip allow-list, plus
1 for an LP position; consequently the score always lies in `[1, 10]`. -/
theorem calculate_risk_score_spec (p : LlamaPool) :
    calculate_risk_score p =
      max 1 (min 10 ((5 : ℤ) +
        (if p.tvlUsd > 100000000 then -1 else 0) +
        (if p.tvlUsd < 1000000 then 2 else 0) +
        (if p.ageDays > 365 then -1 else 0) +
        (if p.ageDays < 30 then 2 else 0) +
        (if (p.project.getD "").toLower ∈
            ["aave", "compound", "uniswap", "curve"] then -1 else 0) +
        (if substrIn "lp" p.symbol.toLower then 1 else 0))) ∧
    1 ≤ calculate_risk_score p ∧ calculate_risk_score p ≤ 10 := by
  refine ⟨?_, ?_, ?_⟩
  · simp only [calculate_risk_score]
    split_ifs <;> first
      | rfl
      | (exfalso; linarith)
  · simp only [calculate_risk_score]
    exact le_max_left _ _
  · simp only [calculate_risk_score]
    exact max_le (by norm_num) (min_le_left _ _)

/-- Claim C10: the public cache operations are non-throwing: with an
uninitialized client `set` returns `False`, `get` returns the supplied
default and `delete` returns `False`, and the same holds when the
underlying store raises (the `except Exception` handlers); the embedded
operations are total functions into plain values. -/
theorem cache_boundary_nonthrowing (r : Option Unit)
    (sres : Except String Unit) (gres : Except String (Option SVal))
    (dres : Except String ℕ) (d : PyVal) (e : String) :
    (r = none →
      cacheSetSafe r sres = false ∧ cacheGetSafe r gres d = d ∧
      cacheDeleteSafe r dres = false) ∧
    (cacheSetSafe r (.error e) = false ∧ cacheGetSafe r (.error e) d = d ∧
      cacheDeleteSafe r (.error e) = false) := by
  cases r <;>
    simp [cacheSetSafe, cacheGetSafe, cacheDeleteSafe]

/-- Witness for C10 at a concrete uninitialized client. -/
theorem cache_boundary_nonthrowing_witness :
    cacheSetSafe none (.ok ()) = false ∧
    cacheGetSafe none (.ok none) (.int 0) = .int 0 ∧
    cacheDeleteSafe none (.ok 1) = false :=
  (cache_boundary_nonthrowing none (.ok ()) (.ok none) (.ok 1) (.int 0) "e").1 rfl

/-- Counterexample to claim C1: `set_if_not_exists` is `exists`-then-`set`
with an await point between the two; in the interleaving where both calls
pass the `exists` check before either writes, both calls report that they
wrote, contradicting "exactly one of the two calls reports that it
wrote". -/
theorem set_if_not_exists_race :
    (nxRun 1 2 [true, false, true, false] nxInit).c1 = .done true ∧
    (nxRun 1 2 [true, false, true, false] nxInit).c2 = .done true ∧
    (nxRun 1 2 [true, false, true, false] nxInit).store = some 2 := by
  refine ⟨rfl, rfl, rfl⟩

/-- Claim C1 as amended: `set_if_not_exists` is a non-atomic
check-then-set: when the two calls run without interleaving, exactly one
reports that it wrote and subsequent `get`s return that winner's value;
but an interleaved execution exists in which both calls observe the key
absent, both report that they wrote, and the surviving value is the later
writer's. -/
theorem set_if_not_exists_check_then_set (v1 v2 : ℕ) :
    nxRun v1 v2 [true, true, false, false] nxInit =
      ⟨.done true, .done false, some v1⟩ ∧
    nxRun v1 v2 [false, false, true, true] nxInit =
      ⟨.done false, .done true, some v2⟩ ∧
    nxRun v1 v2 [true, false, true, false] nxInit =
      ⟨.done true, .done true, some v2⟩ := by
  refine ⟨rfl, rfl, rfl⟩

/-- A key appearing among the keys of `dedupGo seen l` was not already in
`seen`. -/
theorem dedupGo_keys_not_seen (l : List YieldOpportunity) :
    ∀ (seen : List (String × String)) k,
      k ∈ (dedupGo seen l).map dedupKey → k ∉ seen := by
  induction l with
  | nil => intro seen k hk; simp [dedupGo] at hk
  | cons opp rest ih =>
    intro seen k hk
    by_cases hmem : dedupKey opp ∈ seen
    · rw [dedupGo, if_pos hmem] at hk
      exact ih seen k hk
    · rw [dedupGo, if_neg hmem] at hk
      simp only [List.map_cons, List.mem_cons] at hk
      rcases hk with hk | hk
      · subst hk; exact hmem
      · intro hs
        exact ih _ k hk (List.mem_cons_of_mem _ hs)

/-- The keys of `dedupGo seen l` are pairwise distinct. -/
theorem dedupGo_nodup (l : List YieldOpportunity) :
    ∀ seen : List (String × String), ((dedupGo seen l).map dedupKey).Nodup := by
  induction l with
  | nil => intro seen; simp [dedupGo]
  | cons opp rest ih =>
    intro seen
    by_cases hmem : dedupKey opp ∈ seen
    · rw [dedupGo, if_pos hmem]; exact ih seen
    · rw [dedupGo, if_neg hmem]
      simp only [List.map_cons, List.nodup_cons]
      refine ⟨fun hk => ?_, ih _⟩
      exact dedupGo_keys_not_seen rest _ _ hk (List.mem_cons_self _ _)

/-- A record whose key is already in `seen` is never emitted. -/
theorem dedupGo_drop (l : List YieldOpportunity) :
    ∀ (seen : List (String × String)) (b : YieldOpportunity),
      dedupKey b ∈ seen → b ∉ dedupGo seen l := by
  induction l with
  | nil => intro seen b _ h; simp [dedupGo] at h
  | cons opp rest ih =>
    intro seen b hb
    by_cases hmem : dedupKey opp ∈ seen
    · rw [dedupGo, if_pos hmem]; exact ih seen b hb
    · rw [dedupGo, if_neg hmem]
      intro hin
      rcases List.mem_cons.mp hin with hin | hin
      · subst hin; exact hmem hb
      · exact ih _ b (List.mem_cons_of_mem _ hb) hin

/-- A record positioned after an earlier record with the same key is
dropped (provided it does not itself occur among the earlier records). -/
theorem dedupGo_drop_after (pre : List YieldOpportunity) :
    ∀ (seen : List (String × String)) (b : YieldOpportunity)
      (suf : List YieldOpportunity),
      (dedupKey b ∈ seen ∨ ∃ a ∈ pre, dedupKey a = dedupKey b) → b ∉ pre →
      b ∉ dedupGo seen (pre ++ b :: suf) := by
  induction pre with
  | nil =>
    intro seen b suf h hb
    have hseen : dedupKey b ∈ seen := by
      rcases h with h | ⟨a, ha, _⟩
      · exact h
      · simp at ha
    rw [List.nil_append, dedupGo, if_pos hseen]
    exact dedupGo_drop suf seen b hseen
  | cons x xs ih =>
    intro seen b suf h hb
    have hbx : b ≠ x := fun he => hb (he ▸ List.mem_cons_self _ _)
    have hbxs : b ∉ xs := fun hin => hb (List.mem_cons_of_mem _ hin)
    rw [List.cons_append, dedupGo]
    by_cases hmem : dedupKey x ∈ seen
    · rw [if_pos hmem]
      refine ih seen b suf ?_ hbxs
      rcases h with h | ⟨a, ha, hk⟩
      · exact Or.inl h
      · rcases List.mem_cons.mp ha with rfl | ha
        · exact Or.inl (hk ▸ hmem)
        · exact Or.inr ⟨a, ha, hk⟩
    · rw [if_neg hmem]
      intro hin
      rcases List.mem_cons.mp hin with hin | hin
      · exact hbx hin
      · refine ih (dedupKey x :: seen) b suf ?_ hbxs hin
        rcases h with h | ⟨a, ha, hk⟩
        · exact Or.inl (List.mem_cons_of_mem _ h)
        · rcases List.mem_cons.mp ha with rfl | ha
          · exact Or.inl (hk ▸ List.mem_cons_self _ _)
          · exact Or.inr ⟨a, ha, hk⟩

/-- Counterexample to claim C3: deduplication keeps the record from the
source processed earlier, not later — with two records sharing a dedup
key, the output keeps the first and drops the second. -/
theorem dedup_drops_later_duplicate :
    deduplicate_opportunities [oppLlamaUSDC, oppBeefyUSDC] = [oppLlamaUSDC] ∧
    dedupKey oppLlamaUSDC = dedupKey oppBeefyUSDC ∧
    oppBeefyUSDC ≠ oppLlamaUSDC := by decide

/-- Claim C3 as amended: at most one record per dedup key survives, and
when two records share a key, the record from the source processed
earlier in the fixed provider order wins (the later one is dropped). -/
theorem deduplicate_earlier_wins :
    (∀ l : List YieldOpportunity,
      ((deduplicate_opportunities l).map dedupKey).Nodup) ∧
    (∀ (l₁ : List YieldOpportunity) (a : YieldOpportunity)
      (l₂ : List YieldOpportunity) (b : YieldOpportunity)
      (l₃ : List YieldOpportunity),
      dedupKey a = dedupKey b → b ∉ l₁ ++ a :: l₂ →
      b ∉ deduplicate_opportunities (l₁ ++ a :: l₂ ++ b :: l₃)) := by
  constructor
  · intro l; exact dedupGo_nodup l []
  · intro l₁ a l₂ b l₃ hk hb
    have hsplit : l₁ ++ a :: l₂ ++ b :: l₃ = (l₁ ++ a :: l₂) ++ b :: l₃ := by
      simp
    rw [deduplicate_opportunities, hsplit]
    refine dedupGo_drop_after (l₁ ++ a :: l₂) [] b l₃ ?_ hb
    exact Or.inr ⟨a, by simp, hk⟩

/-- Witness for the amended C3 at two concrete same-key records. -/
theorem deduplicate_earlier_wins_witness :
    dedupKey oppLlamaUSDC = dedupKey oppBeefyUSDC ∧
    oppBeefyUSDC ∉ deduplicate_opportunities [oppLlamaUSDC, oppBeefyUSDC] :=
  ⟨by decide,
    deduplicate_earlier_wins.2 [] oppLlamaUSDC [] oppBeefyUSDC []
      (by decide) (by decide)⟩

/-- Counterexample to claim C4: the final sort compares only `apy`; on an
apy tie the stable sort keeps list order, so a lower-tvl record can
precede a higher-tvl one, and two inputs holding the same record multiset
in different orders produce different outputs. -/
theorem sort_ignores_tiebreakers :
    aggregateResults [.ok [oppTieLowTvl, oppTieHighTvl]] =
      [oppTieLowTvl, oppTieHighTvl] ∧
    oppTieLowTvl.apy = oppTieHighTvl.apy ∧
    oppTieLowTvl.tvl < oppTieHighTvl.tvl ∧
    aggregateResults [.ok [oppTieLowTvl, oppTieHighTvl]] ≠
      aggregateResults [.ok [oppTieHighTvl, oppTieLowTvl]] := by decide

/-- Claim C4 as amended: the aggregator sorts by `apy` descending only;
the sort is stable, so the result is a permutation of the deduplicated
list in which apy ties keep the fixed task-order position, and no tvl or
protocol-name tiebreak is applied. -/
theorem aggregate_sorted_by_apy
    (results : List (Except String (List YieldOpportunity))) :
    List.Sorted apyGe (aggregateResults results) ∧
    (aggregateResults results).Perm
      (deduplicate_opportunities (collectResults results)) := by
  constructor
  · exact List.sorted_insertionSort apyGe _
  · exact List.perm_insertionSort apyGe _

/-- Counterexample to claim C2: the aggregator returns a bare list — when
every collector fails the output equals the output of three successful
but empty collectors, so no caller can distinguish "nothing reachable"
from "nothing found", and no per-source status map exists. -/
theorem aggregate_total_failure_empty :
    aggregateResults [.error "a", .error "b", .error "c"] = [] ∧
    aggregateResults [.error "a", .error "b", .error "c"] =
      aggregateResults [.ok [], .ok [], .ok []] :=
  ⟨rfl, rfl⟩

/-- Claim C2 as amended: a failing or timed-out collector contributes
exactly an empty list and the other collectors' results are unaffected
(masking failures as empty successes leaves the output unchanged), and
when every source fails the output is the empty record list; no
per-source status map is produced. -/
theorem aggregate_fail_soft :
    (∀ results, aggregateResults results =
      aggregateResults (results.map maskErrors)) ∧
    (∀ results, (∀ r ∈ results, ∃ e, r = Except.error e) →
      aggregateResults results = []) := by
  have hmask : ∀ results,
      collectResults (results.map maskErrors) = collectResults results := by
    intro results
    induction results with
    | nil => rfl
    | cons r rest ih => cases r <;> simp [maskErrors, collectResults, ih]
  constructor
  · intro results
    rw [aggregateResults, aggregateResults, hmask]
  · intro results h
    have hempty : collectResults results = [] := by
      induction results with
      | nil => rfl
      | cons r rest ih =>
        obtain ⟨e, he⟩ := h r (List.mem_cons_self _ _)
        subst he
        rw [collectResults]
        exact ih fun r hr => h r (List.mem_cons_of_mem _ hr)
    rw [aggregateResults, hempty]
    rfl

/-- Witness for the amended C2 at a concrete failing collector. -/
theorem aggregate_fail_soft_witness :
    aggregateResults [Except.error "boom"] = [] :=
  aggregate_fail_soft.2 [Except.error "boom"]
    (by intro r hr; rw [List.mem_singleton] at hr; exact ⟨"boom", hr⟩)

/-- Two item lists that are permutations of each other and have
pairwise-distinct keys sort to the same canonical list. -/
theorem sortedItems_eq_of_perm {α : Type} {p q : List (String × α)}
    (hpq : p.Perm q) (hnd : (p.map Prod.fst).Nodup) :
    sortedItems p = sortedItems q := by
  have hperm : (sortedItems p).Perm (sortedItems q) :=
    (List.perm_insertionSort _ p).trans
      (hpq.trans (List.perm_insertionSort _ q).symm)
  have strictOf : ∀ (l : List (String × α)),
      ((l.map Prod.fst).Nodup) → List.Sorted (itemLe (α := α)) l →
      List.Sorted (itemLt (α := α)) l := by
    intro l hl hs
    have hne : List.Pairwise (fun a b : String × α => a.1 ≠ b.1) l :=
      List.pairwise_map.mp hl
    have hle : List.Pairwise (itemLe (α := α)) l := hs
    exact (hle.and hne).imp fun h => lt_of_le_of_ne h.1 h.2
  have hndp : ((sortedItems p).map Prod.fst).Nodup :=
    (((List.perm_insertionSort (itemLe (α := α)) p).map Prod.fst).nodup_iff).mpr hnd
  have hndq : ((sortedItems q).map Prod.fst).Nodup :=
    (((List.perm_insertionSort (itemLe (α := α)) q).map Prod.fst).nodup_iff).mpr
      ((hpq.map Prod.fst).nodup_iff.mp hnd)
  exact List.eq_of_perm_of_sorted hperm
    (strictOf _ hndp (List.sorted_insertionSort _ _))
    (strictOf _ hndq (List.sorted_insertionSort _ _))

/-- Claim C8: for every category prefix and every pair of parameter dicts
that are permutations of each other (dict keys being distinct), the
derived cache key — the category joined to a hash of the entry-sorted
serialization — is identical; the hash and serializer are arbitrary
(deterministic) functions, so this holds in particular for
`hashlib.md5(...).hexdigest()` over `json.dumps`. -/
theorem generate_key_perm_invariant (α : Type) (hashHex : String → String)
    (ser : List (String × α) → String) (category : String)
    (p q : List (String × α)) (hpq : p.Perm q)
    (hnd : (p.map Prod.fst).Nodup) :
    generate_key hashHex ser category p =
    generate_key hashHex ser category q := by
  rw [generate_key, generate_key, sortedItems_eq_of_perm hpq hnd]

/-- Witness for C8 at a concrete two-entry parameter dict. -/
theorem generate_key_perm_invariant_witness :
    generate_key id serDemo "yield_opportunities"
      [("min_apy", "1"), ("min_tvl", "2")] =
    generate_key id serDemo "yield_opportunities"
      [("min_tvl", "2"), ("min_apy", "1")] :=
  generate_key_perm_invariant String id serDemo "yield_opportunities"
    _ _ (List.Perm.swap _ _ _) (by decide)

/-- Every record a DeFiLlama scan emits passed the collector's
admissibility filter. -/
theorem mem_scan_defillama {min_apy min_tvl : ℚ} {cs : List String}
    {pools : List LlamaPool} {now : ℕ} {o : YieldOpportunity}
    (ho : o ∈ scan_defillama_yields min_apy min_tvl cs pools now) :
    min_apy ≤ o.apy ∧ min_tvl ≤ o.tvl ∧ o.chain ∈ cs := by
  rw [scan_defillama_yields] at ho
  obtain ⟨p, hp, rfl⟩ := List.mem_map.mp (List.take_subset _ _ ho)
  have hc := of_decide_eq_true (List.mem_filter.mp hp).2
  exact ⟨hc.1, hc.2.1, hc.2.2.1⟩

/-- Every record a Yearn scan emits passed the apy and tvl thresholds —
and its chain is always `'ethereum'`, whatever chains the caller asked
for. -/
theorem mem_scan_yearn {min_apy min_tvl : ℚ} {vaults : List YearnVault}
    {now : ℕ} {o : YieldOpportunity}
    (ho : o ∈ scan_yearn_yields min_apy min_tvl vaults now) :
    min_apy ≤ o.apy ∧ min_tvl ≤ o.tvl ∧ o.chain = "ethereum" := by
  rw [scan_yearn_yields] at ho
  obtain ⟨v, hv, rfl⟩ := List.mem_map.mp ho
  have hc := of_decide_eq_true (List.mem_filter.mp hv).2
  exact ⟨hc.2.1, hc.2.2, rfl⟩

/-- Every record a Beefy scan emits passed the collector's filter. -/
theorem mem_scan_beefy {min_apy min_tvl : ℚ} {cs : List String}
    {vaults : List BeefyVault} {apyData tvlData : List (String × ℚ)}
    {now : ℕ} {o : YieldOpportunity}
    (ho : o ∈ scan_beefy_yields min_apy min_tvl cs vaults apyData tvlData now) :
    min_apy ≤ o.apy ∧ min_tvl ≤ o.tvl ∧ o.chain ∈ cs := by
  rw [scan_beefy_yields] at ho
  obtain ⟨v, hv, rfl⟩ := List.mem_map.mp (List.take_subset _ _ ho)
  have hc := of_decide_eq_true (List.mem_filter.mp hv).2
  exact ⟨hc.2.1, hc.2.2, hc.1⟩

/-- A record of the concatenated results came from one successful
collector result. -/
theorem mem_collectResults {o : YieldOpportunity}
    {results : List (Except String (List YieldOpportunity))}
    (ho : o ∈ collectResults results) :
    ∃ l, Except.ok l ∈ results ∧ o ∈ l := by
  induction results with
  | nil => cases ho
  | cons r rest ih =>
    cases r with
    | ok l =>
      rw [collectResults] at ho
      rcases List.mem_append.mp ho with h | h
      · exact ⟨l, List.mem_cons_self _ _, h⟩
      · obtain ⟨l', hl', ho'⟩ := ih h
        exact ⟨l', List.mem_cons_of_mem _ hl', ho'⟩
    | error e =>
      rw [collectResults] at ho
      obtain ⟨l', hl', ho'⟩ := ih ho
      exact ⟨l', List.mem_cons_of_mem _ hl', ho'⟩

/-- Deduplication only drops records, it never invents them. -/
theorem dedupGo_subset (l : List YieldOpportunity) :
    ∀ (seen : List (String × String)) (o : YieldOpportunity),
      o ∈ dedupGo seen l → o ∈ l := by
  induction l with
  | nil => intro seen o h; simp [dedupGo] at h
  | cons opp rest ih =>
    intro seen o h
    by_cases hmem : dedupKey opp ∈ seen
    · rw [dedupGo, if_pos hmem] at h
      exact List.mem_cons_of_mem _ (ih seen o h)
    · rw [dedupGo, if_neg hmem] at h
      rcases List.mem_cons.mp h with h | h
      · exact h ▸ List.mem_cons_self _ _
      · exact List.mem_cons_of_mem _ (ih _ o h)

/-- Evaluation of the scan on the concrete inputs of the C5
counterexample: only the Yearn collector contributes, and its single
record survives deduplication and sorting. -/
theorem scan_demo_eval :
    scan_yield_opportunities 1 1 (some ["polygon"]) (.ok [])
        (.ok [yearnVaultDemo]) (.ok ⟨[], [], []⟩) 0 = [yearnOppDemo] := by
  have hcond : yearnVaultDemo.net_apy ≠ 0 ∧
      (1 : ℚ) ≤ yearnVaultDemo.net_apy * 100 ∧
      (1 : ℚ) ≤ yearnVaultDemo.tvl := by
    refine ⟨?_, ?_, ?_⟩ <;> norm_num [yearnVaultDemo]
  simp only [scan_yield_opportunities, aggregateResults, sortByApyDesc,
    effectiveChains, Except.map, scan_defillama_yields, scan_yearn_yields,
    scan_beefy_yields, List.filter_nil, List.map_nil, List.take_nil,
    List.filter_cons, decide_eq_true_eq, hcond, if_true, and_true,
    and_self, List.map_cons, List.take_succ_cons, collectResults,
    List.nil_append, List.append_nil, deduplicate_opportunities, dedupGo,
    List.not_mem_nil, if_false, List.insertionSort, List.orderedInsert]
  rw [if_pos hcond.1]
  rfl

/-- Counterexample to claim C5: with `chains = ['polygon']` the Yearn
collector (which never receives the chains argument) still contributes
its record, so the output contains a record whose chain is not a member
of the requested chains list. -/
theorem yearn_ignores_chain_filter :
    (scan_yield_opportunities 1 1 (some ["polygon"]) (.ok [])
        (.ok [yearnVaultDemo]) (.ok ⟨[], [], []⟩) 0).map
      YieldOpportunity.chain = ["ethereum"] ∧
    "ethereum" ∉ ["polygon"] := by
  rw [scan_demo_eval]
  exact ⟨rfl, by decide⟩

/-- Claim C5 as amended: every returned record satisfies
`apy ≥ min_apy` and `tvl ≥ min_tvl`; records from the DeFiLlama and Beefy
collectors additionally have their chain in the effective chains list,
but Yearn records always carry chain `'ethereum'` regardless of the
chains parameter, so `chain ∈ chains` can fail for them. -/
theorem scan_respects_thresholds (min_apy min_tvl : ℚ)
    (chains : Option (List String))
    (llama : Except String (List LlamaPool))
    (yearn : Except String (List YearnVault))
    (beefy : Except String BeefyPayload) (now : ℕ) (o : YieldOpportunity)
    (ho : o ∈ scan_yield_opportunities min_apy min_tvl chains llama yearn
      beefy now) :
    min_apy ≤ o.apy ∧ min_tvl ≤ o.tvl ∧
      (o.chain ∈ effectiveChains chains ∨ o.chain = "ethereum") := by
  simp only [scan_yield_opportunities, aggregateResults, sortByApyDesc] at ho
  replace ho := (List.perm_insertionSort apyGe _).mem_iff.mp ho
  replace ho := dedupGo_subset _ [] o ho
  obtain ⟨l, hl, hol⟩ := mem_collectResults ho
  rcases List.mem_cons.mp hl with h | hl
  · cases llama with
    | ok ps =>
      simp only [Except.map] at h
      obtain rfl := Except.ok.inj h
      obtain ⟨h1, h2, h3⟩ := mem_scan_defillama hol
      exact ⟨h1, h2, Or.inl h3⟩
    | error e => simp only [Except.map] at h; exact Except.noConfusion h
  rcases List.mem_cons.mp hl with h | hl
  · cases yearn with
    | ok vs =>
      simp only [Except.map] at h
      obtain rfl := Except.ok.inj h
      obtain ⟨h1, h2, h3⟩ := mem_scan_yearn hol
      exact ⟨h1, h2, Or.inr h3⟩
    | error e => simp only [Except.map] at h; exact Except.noConfusion h
  rcases List.mem_cons.mp hl with h | hl
  · cases beefy with
    | ok b =>
      simp only [Except.map] at h
      obtain rfl := Except.ok.inj h
      obtain ⟨h1, h2, h3⟩ := mem_scan_beefy hol
      exact ⟨h1, h2, Or.inl h3⟩
    | error e => simp only [Except.map] at h; exact Except.noConfusion h
  · cases hl

/-- Witness for the amended C5 at the concrete Yearn record. -/
theorem scan_respects_thresholds_witness :
    (1 : ℚ) ≤ yearnOppDemo.apy ∧ (1 : ℚ) ≤ yearnOppDemo.tvl ∧
    (yearnOppDemo.chain ∈ effectiveChains (some ["polygon"]) ∨
      yearnOppDemo.chain = "ethereum") :=
  scan_respects_thresholds 1 1 (some ["polygon"]) (.ok [])
    (.ok [yearnVaultDemo]) (.ok ⟨[], [], []⟩) 0 yearnOppDemo
    (by rw [scan_demo_eval]; exact List.mem_singleton.mpr rfl)

/-- The conflict-branch update rewrites only payload columns, so the key
and `created_at` of every row are untouched. -/
theorem upsertYield_conflict (table : List YieldRow) (d : YieldRecordIn)
    (now : ℕ)
    (hc : table.any (fun r => decide (yieldKey r = yieldRecKey d)) = true) :
    (upsertYield table d now).map yieldKey = table.map yieldKey ∧
    (upsertYield table d now).map YieldRow.created_at =
      table.map YieldRow.created_at ∧
    (upsertYield table d now).length = table.length := by
  rw [upsertYield, if_pos hc]
  refine ⟨?_, ?_, by rw [List.length_map]⟩
  · rw [List.map_map]
    refine List.map_congr_left fun r _ => ?_
    simp only [Function.comp_apply]
    split <;> rfl
  · rw [List.map_map]
    refine List.map_congr_left fun r _ => ?_
    simp only [Function.comp_apply]
    split <;> rfl

/-- Upserting preserves uniqueness of the natural key: a conflicting
record rewrites the matching row in place, a fresh record appends a row
whose key occurs nowhere in the table. -/
theorem upsertYield_nodup (table : List YieldRow) (d : YieldRecordIn)
    (now : ℕ) (h : (table.map yieldKey).Nodup) :
    ((upsertYield table d now).map yieldKey).Nodup := by
  by_cases hc : table.any (fun r => decide (yieldKey r = yieldRecKey d)) = true
  · rw [(upsertYield_conflict table d now hc).1]; exact h
  · rw [upsertYield, if_neg hc, List.map_append]
    refine List.Nodup.append h (List.nodup_singleton _) ?_
    intro k hk hk'
    rw [List.mem_map] at hk
    obtain ⟨r, hr, rfl⟩ := hk
    rw [List.map_singleton, List.mem_singleton] at hk'
    refine hc ?_
    rw [List.any_eq_true]
    refine ⟨r, hr, ?_⟩
    rw [decide_eq_true_eq, hk']
    rfl

/-- Two upserts of the same natural key into an empty table leave exactly
the first row with the second record's payload columns. -/
theorem store_same_key_twice (d1 d2 : YieldRecordIn) (now : ℕ)
    (hk : yieldRecKey d1 = yieldRecKey d2) :
    store_yield_data [] [d1, d2] now =
      [{ yieldRowOf d1 now with
          apy := d2.apy, tvl := d2.tvl, risk_score := d2.risk_score }] := by
  have hkk : yieldKey (yieldRowOf d1 now) = yieldRecKey d2 := by
    rw [← hk]; rfl
  have h1 : upsertYield [] d1 now = [yieldRowOf d1 now] := by
    rw [upsertYield, if_neg (by rw [List.any_nil]; exact Bool.false_ne_true),
      List.nil_append]
  have h2 : upsertYield [yieldRowOf d1 now] d2 now =
      [{ yieldRowOf d1 now with
          apy := d2.apy, tvl := d2.tvl, risk_score := d2.risk_score }] := by
    rw [upsertYield, if_pos (by
      rw [List.any_cons, List.any_nil, Bool.or_false, decide_eq_true_eq]
      exact hkk)]
    rw [List.map_singleton, if_pos hkk]
  rw [store_yield_data, List.foldl_cons, List.foldl_cons, List.foldl_nil,
    h1, h2]

/-- Counterexample to claim C7: `store_portfolio_snapshot` is a plain
`INSERT` with no uniqueness constraint — storing the same
`(portfolio_id, timestamp)` twice leaves two rows with the same natural
key, so re-insertion does create a second row for this persisted-row
kind. -/
theorem snapshot_insert_duplicates :
    (store_portfolio_snapshot
        (store_portfolio_snapshot [] "p1" snapDemo 5) "p1" snapDemo 6).length
      = 2 ∧
    (store_portfolio_snapshot
        (store_portfolio_snapshot [] "p1" snapDemo 5) "p1" snapDemo 6).map
      snapshotKey = [("p1", 10), ("p1", 10)] := by decide

/-- Claim C7 as amended: `yield_data` rows genuinely upsert — inserting a
record whose natural key matches an existing row never adds a row, leaves
every key and `created_at` unchanged and rewrites only the payload
columns `apy`, `tvl`, `risk_score`, so two upserts with the same key and
different risk scores leave exactly one row carrying the later score —
but portfolio snapshots are stored by a plain insert that always appends
a row, even when the `(portfolio_id, timestamp)` pair already occurs. -/
theorem upsert_natural_key :
    (∀ (table : List YieldRow) (d : YieldRecordIn) (now : ℕ),
      ((table.map yieldKey).Nodup) →
      ((upsertYield table d now).map yieldKey).Nodup) ∧
    (∀ (table : List YieldRow) (d : YieldRecordIn) (now : ℕ),
      table.any (fun r => decide (yieldKey r = yieldRecKey d)) = true →
      (upsertYield table d now).map yieldKey = table.map yieldKey ∧
      (upsertYield table d now).map YieldRow.created_at =
        table.map YieldRow.created_at ∧
      (upsertYield table d now).length = table.length) ∧
    (∀ (d1 d2 : YieldRecordIn) (now : ℕ),
      yieldRecKey d1 = yieldRecKey d2 →
      store_yield_data [] [d1, d2] now =
        [{ yieldRowOf d1 now with
            apy := d2.apy, tvl := d2.tvl, risk_score := d2.risk_score }]) ∧
    (∀ (table : List SnapshotRow) (pid : String) (snap : SnapshotIn)
      (now : ℕ),
      (store_portfolio_snapshot table pid snap now).length =
        table.length + 1) :=
  ⟨upsertYield_nodup, upsertYield_conflict, store_same_key_twice,
    fun table _ _ _ => by
      rw [store_portfolio_snapshot, List.length_append, List.length_singleton]⟩

/-- Witness for the amended C7 at two concrete same-key records with
different risk scores. -/
theorem upsert_natural_key_witness :
    store_yield_data [] [ydInFirst, ydInSecond] 7 =
      [{ yieldRowOf ydInFirst 7 with
          apy := ydInSecond.apy, tvl := ydInSecond.tvl,
          risk_score := ydInSecond.risk_score }] :=
  upsert_natural_key.2.2.1 ydInFirst ydInSecond 7 (by decide)

/-! ### JSON round trip -/

mutual

/-- `json.loads(json.dumps(v))` is the identity on tuple-free values. -/
theorem decode_encode : ∀ (v : PyVal), hasTuple v = false →
    decodeJ (encodePy v) = v
  | .int _, _ => rfl
  | .str _, _ => rfl
  | .tuple _, h => by rw [hasTuple] at h; exact Bool.noConfusion h
  | .list xs, h => by
    rw [hasTuple] at h
    rw [encodePy, decodeJ, decode_encode_list xs h]
  | .dict es, h => by
    rw [hasTuple] at h
    rw [encodePy, decodeJ, decode_encode_entries es h]

theorem decode_encode_list : ∀ (xs : List PyVal), hasTupleList xs = false →
    decodeJList (encodePyList xs) = xs
  | [], _ => rfl
  | x :: xs, h => by
    rw [hasTupleList, Bool.or_eq_false_iff] at h
    rw [encodePyList, decodeJList, decode_encode x h.1,
      decode_encode_list xs h.2]

theorem decode_encode_entries : ∀ (es : List (String × PyVal)),
    hasTupleEntries es = false → decodeJEntries (encodePyEntries es) = es
  | [], _ => rfl
  | (k, v) :: es, h => by
    rw [hasTupleEntries, Bool.or_eq_false_iff] at h
    rw [encodePyEntries, decodeJEntries, decode_encode v h.1,
      decode_encode_entries es h.2]

end

/-- Counterexample to claim C9: the value `[(1, 2)]` — a list holding a
tuple — is stored as JSON and comes back as `[[1, 2]]`: a `get` right
after `set`, well before the TTL elapses, does not return the exact value
that was stored, so the serialize/deserialize round trip is not the
identity. -/
theorem cache_roundtrip_not_identity :
    cacheGet (cacheSet [] "k" tupleInList 60 0) "k" (.int 0) 1 ≠
      tupleInList := by
  intro h
  have hb := congrArg hasTuple h
  rw [show hasTuple
      (cacheGet (cacheSet [] "k" tupleInList 60 0) "k" (.int 0) 1) = false
    from rfl] at hb
  rw [show hasTuple tupleInList = true from rfl] at hb
  exact Bool.false_ne_true hb

/-- Claim C9 as amended: a `get` after a successful `set`, before the TTL
has elapsed, returns the serialize/deserialize round trip of the stored
value — which is the exact value whenever the value contains no tuple (in
particular for every pickled, non-dict/list value), while tuples nested in
a stored dict or list come back as lists — and a `get` at or after the
expiry time returns the caller-supplied default. -/
theorem cache_get_after_set (st : CacheState) (k : String) (v d : PyVal)
    (ttl t0 t1 : ℕ) :
    (t1 < t0 + ttl →
      cacheGet (cacheSet st k v ttl t0) k d t1 =
        deserializeValue (serializeValue v)) ∧
    (hasTuple v = false → deserializeValue (serializeValue v) = v) ∧
    (t0 + ttl ≤ t1 → cacheGet (cacheSet st k v ttl t0) k d t1 = d) := by
  have hfind : cacheFind (cacheSet st k v ttl t0) k =
      some (serializeValue v, t0 + ttl) := by
    rw [cacheSet, cacheFind, if_pos rfl]
  refine ⟨?_, ?_, ?_⟩
  · intro ht
    rw [cacheGet, hfind]
    show (if t1 < t0 + ttl then deserializeValue (serializeValue v) else d) =
      deserializeValue (serializeValue v)
    exact if_pos ht
  · intro hv
    rw [serializeValue]
    by_cases hdl : isDictOrList v = true
    · rw [if_pos hdl, deserializeValue]
      exact decode_encode v hv
    · rw [if_neg hdl, deserializeValue]
  · intro ht
    rw [cacheGet, hfind]
    show (if t1 < t0 + ttl then deserializeValue (serializeValue v) else d) = d
    exact if_neg (not_lt.mpr ht)

/-- Witness for the amended C9 at a concrete tuple-free value: before the
TTL the exact value comes back, at the TTL the default comes back. -/
theorem cache_get_after_set_witness :
    cacheGet (cacheSet [] "k" (.int 7) 60 0) "k" (.int 0) 10 =
      deserializeValue (serializeValue (.int 7)) ∧
    deserializeValue (serializeValue (.int 7)) = .int 7 ∧
    cacheGet (cacheSet [] "k" (.int 7) 60 0) "k" (.int 0) 60 = .int 0 :=
  ⟨(cache_get_after_set [] "k" (.int 7) (.int 0) 60 0 10).1 (by decide),
   (cache_get_after_set [] "k" (.int 7) (.int 0) 60 0 10).2.1 (by decide),
   (cache_get_after_set [] "k" (.int 7) (.int 0) 60 0 60).2.2 (by decide)⟩

end FlowBridge
